import Mathlib

/-!
Shallow embedding of the virtual trading ledger in `auto_trade/portfolio.py`
of the ContestTrade repository, together with the administrative mutator
scripts `scripts/add_cash.py`, `scripts/add_holding.py` and
`scripts/sell_holding.py`.

Monetary amounts are modelled as exact rationals.  The two rounding modes of
the source are modelled explicitly: `decimal.Decimal.quantize` with
`ROUND_HALF_UP` (ties away from zero) used by the fee schedule, and Python's
built-in `round` (ties to even) used by the bookkeeping code.  The `None` and
`NaN` guards of `buy` concern floating-point values with no rational
counterpart; over the rational embedding the price-validity test reduces to
positivity, which is the only branch a rational input can take.
-/

/-- Model of `Decimal.quantize(Decimal("0.00"), rounding=ROUND_HALF_UP)`:
round to a multiple of 1/100, ties away from zero. -/
def roundHalfUp2 (x : ℚ) : ℚ :=
  if 0 ≤ x then (⌊x * 100 + 1/2⌋ : ℚ) / 100
  else -((⌊-x * 100 + 1/2⌋ : ℚ) / 100)

/-- Model of Python `round` to an integer: round to nearest, ties to even. -/
def roundHalfEven (y : ℚ) : ℤ :=
  if y - ⌊y⌋ < 1/2 then ⌊y⌋
  else if 1/2 < y - ⌊y⌋ then ⌊y⌋ + 1
  else if ⌊y⌋ % 2 = 0 then ⌊y⌋ else ⌊y⌋ + 1

/-- Model of Python `round(x, 2)`. -/
def pyRound2 (x : ℚ) : ℚ := (roundHalfEven (x * 100) : ℚ) / 100

/-- Model of Python `round(x, 3)`. -/
def pyRound3 (x : ℚ) : ℚ := (roundHalfEven (x * 1000) : ℚ) / 1000

/-- Model of Python `int(...)`: truncation toward zero. -/
def truncInt (q : ℚ) : ℤ := if 0 ≤ q then ⌊q⌋ else ⌈q⌉

/-- `VirtualPortfolio.COMMISSION_RATE = Decimal("0.0003")`. -/
def COMMISSION_RATE : ℚ := 3 / 10000

/-- `VirtualPortfolio.MIN_COMMISSION = Decimal("5.0")`. -/
def MIN_COMMISSION : ℚ := 5

/-- `VirtualPortfolio.STAMP_DUTY_RATE = Decimal("0.0005")`. -/
def STAMP_DUTY_RATE : ℚ := 5 / 10000

/-- `VirtualPortfolio.TRANSFER_FEE_RATE = Decimal("0.00001")`. -/
def TRANSFER_FEE_RATE : ℚ := 1 / 100000

/-- `VirtualPortfolio._calculate_buy_fee`. -/
def calculate_buy_fee (cost : ℚ) : ℚ :=
  let commission0 := cost * COMMISSION_RATE
  let commission := if commission0 < MIN_COMMISSION then MIN_COMMISSION else commission0
  let commissionR := roundHalfUp2 commission
  let transfer := roundHalfUp2 (cost * TRANSFER_FEE_RATE)
  commissionR + transfer

/-- `VirtualPortfolio._calculate_sell_fee`. -/
def calculate_sell_fee (revenue : ℚ) : ℚ :=
  let commission0 := revenue * COMMISSION_RATE
  let commission := if commission0 < MIN_COMMISSION then MIN_COMMISSION else commission0
  let commissionR := roundHalfUp2 commission
  let transfer := roundHalfUp2 (revenue * TRANSFER_FEE_RATE)
  let stamp_duty := roundHalfUp2 (revenue * STAMP_DUTY_RATE)
  commissionR + transfer + stamp_duty

/-- One holding, the value of `data["holdings"][symbol]`.  The fields
`max_price` and `buy_fee` are optional because `add_holding.py` creates
holdings without them; the source reads them through `.get` with defaults. -/
structure Position where
  name : String
  quantity : ℤ
  buy_price : ℚ
  buy_time : String
  current_price : ℚ
  max_price : Option ℚ
  buy_fee : Option ℚ
  deriving DecidableEq

/-- One entry of `data["history"]`.  The `pnl` field of a SELL entry stores
`round(pnl, 2)` and `pnl_rate` the exact rate that the source formats into a
percentage string; the constant `notes` strings of the manual entries are
omitted. -/
inductive Transaction where
  | buyTx (symbol : String) (price : ℚ) (quantity : ℤ) (fee : ℚ) (time : String)
  | sellTx (symbol : String) (name : String) (buy_price : ℚ) (sell_price : ℚ)
      (quantity : ℤ) (buy_fee : ℚ) (sell_fee : ℚ) (time : String)
      (pnl : ℚ) (pnl_rate : ℚ) (reason : String)
  | depositTx (amount : ℚ) (time : String)
  | buyManualTx (symbol : String) (price : ℚ) (quantity : ℤ) (time : String)
  | sellManualTx (symbol : String) (price : ℚ) (quantity : ℤ) (time : String)
  deriving DecidableEq

/-- One entry of the `holdings` detail list inside a daily stat
(`stock_details` in `update_performance`); the formatted rate string is
omitted and `net_pnl` stores `round(net_pnl, 2)`. -/
structure StockDetail where
  symbol : String
  current_price : ℚ
  max_price : ℚ
  net_pnl : ℚ
  deriving DecidableEq

/-- One entry of `data["daily_stats"]`; `day_return` stores the exact value
that the source formats into a percentage string. -/
structure DailySnapshot where
  date : String
  total_value : ℚ
  total_pnl : ℚ
  total_fees : ℚ
  day_return : ℚ
  holdings : List StockDetail
  deriving DecidableEq

/-- The persisted ledger document `self.data`.  The holdings dict is an
association list with the dict's insertion order; Python dict keys are
unique, which theorems assume where it matters. -/
structure PortfolioState where
  cash : ℚ
  holdings : List (String × Position)
  history : List Transaction
  daily_stats : List DailySnapshot
  total_fees : ℚ
  deriving DecidableEq

/-- Dict lookup `d[symbol]` / membership `symbol in d`. -/
def assocLookup (key : String) : List (String × Position) → Option Position
  | [] => none
  | (k, v) :: rest => if k = key then some v else assocLookup key rest

/-- In-place update of the value stored under a dict key. -/
def updateAssoc (key : String) (f : Position → Position) :
    List (String × Position) → List (String × Position)
  | [] => []
  | (k, v) :: rest => if k = key then (k, f v) :: rest else (k, v) :: updateAssoc key f rest

/-- Dict `pop`/`del`: removal of the entry stored under a key. -/
def removeAssoc (key : String) : List (String × Position) → List (String × Position)
  | [] => []
  | (k, v) :: rest => if k = key then rest else (k, v) :: removeAssoc key rest

/-- Characters of a string up to (excluding) the first space. -/
def upToSpace : List Char → List Char
  | [] => []
  | c :: rest => if c = ' ' then [] else c :: upToSpace rest

/-- Model of `time_str.split(' ')[0]`: the date part of a timestamp string. -/
def dateOf (t : String) : String := String.mk (upToSpace t.data)

/-- The default document built by `VirtualPortfolio._load` when no snapshot
exists (initial capital 20000). -/
def initialState : PortfolioState :=
  { cash := 20000, holdings := [], history := [], daily_stats := [], total_fees := 0 }

/-- A concrete held position (1000 shares at 10 with the exact buy fee 5.10),
used to instantiate theorems on concrete inputs. -/
def samplePosition : Position :=
  { name := "Moutai", quantity := 1000, buy_price := 10,
    buy_time := "2024-01-01 09:31:00", current_price := 10,
    max_price := some 10, buy_fee := some (51/10) }

/-- The ledger document right after buying `samplePosition` from the initial
capital, used to instantiate theorems on concrete inputs. -/
def sampleState : PortfolioState :=
  { cash := 99949/10, holdings := [("600519", samplePosition)],
    history := [], daily_stats := [], total_fees := 51/10 }

/-- `quantity = (int(amount / price) // 100) * 100` in `VirtualPortfolio.buy`. -/
def buyQuantity (amount price : ℚ) : ℤ := ((truncInt (amount / price)).fdiv 100) * 100

/-- `VirtualPortfolio.buy`.  Returns the Python boolean result together with
the document state after the call. -/
def buy (s : PortfolioState) (symbol : String) (price : ℚ) (time_str : String)
    (name : String) (amount : ℚ) : Bool × PortfolioState :=
  if (assocLookup symbol s.holdings).isSome then (false, s)
  else if price ≤ 0 then (false, s)
  else
    let quantity := buyQuantity amount price
    if quantity < 100 then (false, s)
    else
      let cost : ℚ := quantity * price
      let fee := calculate_buy_fee cost
      if s.cash < cost + fee then (false, s)
      else
        (true,
         { s with
           cash := s.cash - (cost + fee)
           total_fees := pyRound2 (s.total_fees + fee)
           holdings := s.holdings ++
             [(symbol,
               { name := name, quantity := quantity, buy_price := price,
                 buy_time := time_str, current_price := price,
                 max_price := some price, buy_fee := some fee })]
           history := s.history ++ [Transaction.buyTx symbol price quantity fee time_str] })

/-- `VirtualPortfolio.sell`.  Returns the Python boolean result together with
the document state after the call. -/
def sell (s : PortfolioState) (symbol : String) (price : ℚ) (time_str : String)
    (reason : String) : Bool × PortfolioState :=
  match assocLookup symbol s.holdings with
  | none => (false, s)
  | some holding =>
    if dateOf holding.buy_time = dateOf time_str then (false, s)
    else
      let quantity := holding.quantity
      let revenue : ℚ := quantity * price
      let fee := calculate_sell_fee revenue
      let buy_price := holding.buy_price
      let buy_fee := holding.buy_fee.getD 0
      let pnl := revenue - quantity * buy_price - fee - buy_fee
      let pnl_rate := pnl / (quantity * buy_price + buy_fee)
      (true,
       { s with
         cash := s.cash + (revenue - fee)
         total_fees := pyRound2 (s.total_fees + fee)
         holdings := removeAssoc symbol s.holdings
         history := s.history ++
           [Transaction.sellTx symbol holding.name buy_price price quantity buy_fee fee
             time_str (pyRound2 pnl) pnl_rate reason] })

/-- A Python float as it reaches the fee computation (where the source turns
it into `Decimal(str(x))`): either NaN or an exact rational value. -/
inductive PyFloat where
  | nan : PyFloat
  | val (x : ℚ) : PyFloat
  deriving DecidableEq

/-- Multiplication on the float domain; NaN propagates quietly, as it does
both for Python floats (`quantity * price`) and for `Decimal("nan")`
products (`d_revenue * COMMISSION_RATE`). -/
def PyFloat.mul : PyFloat → PyFloat → PyFloat
  | PyFloat.nan, _ => PyFloat.nan
  | _, PyFloat.nan => PyFloat.nan
  | PyFloat.val a, PyFloat.val b => PyFloat.val (a * b)

/-- `Decimal` ordering comparison under Python's default decimal context:
`a < b` raises `decimal.InvalidOperation` (modelled as `none`) when an
operand is a NaN, and otherwise answers the rational comparison. -/
def PyFloat.lt : PyFloat → PyFloat → Option Bool
  | PyFloat.nan, _ => none
  | _, PyFloat.nan => none
  | PyFloat.val a, PyFloat.val b => some (decide (a < b))

/-- `VirtualPortfolio._calculate_sell_fee` on the float domain including NaN:
`none` models the call raising.  For a NaN revenue the commission product is
a quiet NaN and the comparison `commission < self.MIN_COMMISSION` signals
`decimal.InvalidOperation`; for a rational revenue the computation is
`calculate_sell_fee`. -/
def calculate_sell_fee_py (revenue : PyFloat) : Option ℚ :=
  match (revenue.mul (PyFloat.val COMMISSION_RATE)).lt (PyFloat.val MIN_COMMISSION) with
  | none => none
  | some _ =>
    match revenue with
    | PyFloat.nan => none
    | PyFloat.val r => some (calculate_sell_fee r)

/-- `VirtualPortfolio.sell` over the float price domain including NaN: the
`decimal.InvalidOperation` raised inside the fee computation propagates out
of the call (`none`, with nothing persisted); on a non-NaN price the call
behaves as `sell`. -/
def sell_py (s : PortfolioState) (symbol : String) (price : PyFloat)
    (time_str reason : String) : Option (Bool × PortfolioState) :=
  match assocLookup symbol s.holdings with
  | none => some (false, s)
  | some holding =>
    if dateOf holding.buy_time = dateOf time_str then some (false, s)
    else
      match calculate_sell_fee_py ((PyFloat.val (holding.quantity : ℚ)).mul price) with
      | none => none
      | some _ =>
        match price with
        | PyFloat.nan => none
        | PyFloat.val p => some (sell s symbol p time_str reason)

/-- The per-position price refresh in `update_performance`: when the symbol
appears in `current_prices`, the current price is overwritten and the high
water `max_price` is raised when strictly exceeded (default 0 when absent). -/
def updatePosition (prices : List (String × ℚ)) (sym : String) (p : Position) : Position :=
  match prices.lookup sym with
  | some np =>
      { p with current_price := np
               max_price := if p.max_price.getD 0 < np then some np else p.max_price }
  | none => p

/-- `qty * cur_price - est_sell_fee`, the estimated after-fee liquidation
value of one position as accumulated into `total_holdings_value`. -/
def netLiquidation (p : Position) : ℚ :=
  (p.quantity : ℚ) * p.current_price -
    calculate_sell_fee ((p.quantity : ℚ) * p.current_price)

/-- The `stock_details` entry built for one (already refreshed) position. -/
def positionDetail (sym : String) (p : Position) : StockDetail :=
  let est_sell_fee := calculate_sell_fee ((p.quantity : ℚ) * p.current_price)
  let net_pnl := (p.current_price - p.buy_price) * (p.quantity : ℚ) -
    p.buy_fee.getD 0 - est_sell_fee
  { symbol := sym, current_price := p.current_price,
    max_price := p.max_price.getD p.current_price,
    net_pnl := pyRound2 net_pnl }

/-- `VirtualPortfolio.update_performance`. -/
def update_performance (s : PortfolioState) (prices : List (String × ℚ))
    (date_str : String) : PortfolioState :=
  let holdings2 := s.holdings.map fun kv => (kv.1, updatePosition prices kv.1 kv.2)
  let total_holdings_value := (holdings2.map fun kv => netLiquidation kv.2).sum
  let details := holdings2.map fun kv => positionDetail kv.1 kv.2
  let total_value := s.cash + total_holdings_value
  let day_return :=
    match s.daily_stats.getLast? with
    | some prev => (total_value - prev.total_value) / prev.total_value
    | none => 0
  let stat : DailySnapshot :=
    { date := date_str, total_value := pyRound2 total_value,
      total_pnl := pyRound2 (total_value - 20000), total_fees := s.total_fees,
      day_return := day_return, holdings := details }
  { s with holdings := holdings2, daily_stats := s.daily_stats ++ [stat] }

/-- The claim-side per-position liquidation value, phrased on the inputs of
`update_performance`: the supplied price when present, else the stored one. -/
def specNetLiq (prices : List (String × ℚ)) (kv : String × Position) : ℚ :=
  let eff := (prices.lookup kv.1).getD kv.2.current_price
  (kv.2.quantity : ℚ) * eff - calculate_sell_fee ((kv.2.quantity : ℚ) * eff)

/-- `VirtualPortfolio.check_trailing_stop`.  A pure advisory: the document is
not among its outputs. -/
def check_trailing_stop (s : PortfolioState) (symbol : String) (current_price : ℚ)
    (threshold : ℚ) (min_gain : ℚ) : Bool :=
  match assocLookup symbol s.holdings with
  | none => false
  | some info =>
    let buy_price := info.buy_price
    let max_price := info.max_price.getD buy_price
    let gain := (current_price - buy_price) / buy_price
    let drop_from_max := (max_price - current_price) / max_price
    decide (min_gain ≤ gain ∧ threshold ≤ drop_from_max)

/-- `scripts/add_cash.py::add_cash`, the administrative cash deposit.
`now` stands for `datetime.now().strftime(...)`. -/
def add_cash (s : PortfolioState) (amount : ℚ) (now : String) : PortfolioState :=
  { s with cash := s.cash + amount
           history := s.history ++ [Transaction.depositTx amount now] }

/-- `scripts/add_holding.py::add_holding`, the administrative force-add /
averaging mutator.  `confirmForce` models the interactive `y` answer when the
cash check fails; `now` stands for `datetime.now().strftime(...)`. -/
def add_holding (s : PortfolioState) (symbol : String) (price : ℚ) (quantity : ℤ)
    (name : Option String) (now : String) (confirmForce : Bool) : PortfolioState :=
  let cost := price * (quantity : ℚ)
  if s.cash < cost ∧ confirmForce = false then s
  else
    let holdings2 :=
      match assocLookup symbol s.holdings with
      | some old =>
        let new_total_qty := old.quantity + quantity
        let new_avg_price : ℚ :=
          (old.buy_price * (old.quantity : ℚ) + price * (quantity : ℚ)) / (new_total_qty : ℚ)
        updateAssoc symbol
          (fun h => { h with quantity := new_total_qty, buy_price := pyRound3 new_avg_price })
          s.holdings
      | none =>
        s.holdings ++
          [(symbol,
            { name := name.getD symbol, quantity := quantity, buy_price := price,
              buy_time := now, current_price := price, max_price := none, buy_fee := none })]
    { s with cash := s.cash - cost
             holdings := holdings2
             history := s.history ++ [Transaction.buyManualTx symbol price quantity now] }

/-- `scripts/sell_holding.py::sell_holding`, the administrative force-sell /
partial-sell mutator. -/
def sell_holding (s : PortfolioState) (symbol : String) (price : ℚ) (quantity : ℤ)
    (now : String) : PortfolioState :=
  match assocLookup symbol s.holdings with
  | none => s
  | some holding =>
    if holding.quantity < quantity then s
    else
      let revenue : ℚ := price * (quantity : ℚ)
      let new_qty := holding.quantity - quantity
      let holdings2 :=
        if 0 < new_qty then
          updateAssoc symbol (fun h => { h with quantity := new_qty }) s.holdings
        else removeAssoc symbol s.holdings
      { s with cash := s.cash + revenue
               holdings := holdings2
               history := s.history ++ [Transaction.sellManualTx symbol price quantity now] }

/-- A position quantity that is a positive multiple of the 100-share lot. -/
def quantityOk (p : Position) : Prop := 0 < p.quantity ∧ p.quantity % 100 = 0

instance (p : Position) : Decidable (quantityOk p) := by
  unfold quantityOk; infer_instance

/-- The ledger invariant of the spec: non-negative cash and every open
position a positive multiple of 100 shares. -/
def ledgerInvariant (s : PortfolioState) : Prop :=
  0 ≤ s.cash ∧ ∀ kv ∈ s.holdings, quantityOk kv.2

instance (s : PortfolioState) : Decidable (ledgerInvariant s) := by
  unfold ledgerInvariant; exact instDecidableAnd

/-- The realized profit-and-loss recorded by a SELL transaction, when the
transaction is one. -/
def Transaction.recordedPnl : Transaction → Option ℚ
  | Transaction.sellTx _ _ _ _ _ _ _ _ pnl _ _ => some pnl
  | _ => none

/-- File-system operations relevant to `_save`: the snapshot file and a
would-be temporary file, each either absent or holding a string. -/
structure FileSys where
  target : Option String
  temp : Option String
  deriving DecidableEq

/-- A single persistence step. -/
inductive SaveStep where
  | openTruncate : SaveStep
  | writeTarget : String → SaveStep
  | writeTemp : String → SaveStep
  | renameTempToTarget : SaveStep
  deriving DecidableEq

def applyStep (fs : FileSys) : SaveStep → FileSys
  | SaveStep.openTruncate => { fs with target := some "" }
  | SaveStep.writeTarget c => { fs with target := some c }
  | SaveStep.writeTemp c => { fs with temp := some c }
  | SaveStep.renameTempToTarget => { target := fs.temp, temp := none }

def runSteps (fs : FileSys) (steps : List SaveStep) : FileSys :=
  steps.foldl applyStep fs

/-- The file operations `VirtualPortfolio._save` performs: `open(path, "w")`
truncates the snapshot in place, then `json.dump` writes the new serialized
state into it. -/
def saveSteps (content : String) : List SaveStep :=
  [SaveStep.openTruncate, SaveStep.writeTarget content]

/-- Modelled from the spec: "state is serialized to a temporary file and
atomically renamed over the previous snapshot".  No such write pattern
appears in `portfolio.py`; this is the spec's claimed pattern, for
comparison with `saveSteps`. -/
def atomicSaveSteps (content : String) : List SaveStep :=
  [SaveStep.writeTemp content, SaveStep.renameTempToTarget]

/-- Crash safety of a persistence routine: interrupted after any prefix of
its steps, the snapshot file holds either the old or the new content. -/
def crashSafe (steps : List SaveStep) (old new : String) : Prop :=
  ∀ k ≤ steps.length,
    (runSteps { target := some old, temp := none } (steps.take k)).target = some old ∨
    (runSteps { target := some old, temp := none } (steps.take k)).target = some new

instance (steps : List SaveStep) (old new : String) : Decidable (crashSafe steps old new) := by
  unfold crashSafe; infer_instance

/-- Rationals that are whole multiples of 1/100 (whole cents). -/
def isCents (x : ℚ) : Prop := ∃ n : ℤ, x = (n : ℚ) / 100

theorem isCents_add {x y : ℚ} (hx : isCents x) (hy : isCents y) : isCents (x + y) := by
  obtain ⟨n, rfl⟩ := hx
  obtain ⟨m, rfl⟩ := hy
  exact ⟨n + m, by push_cast; ring⟩

theorem isCents_neg {x : ℚ} (hx : isCents x) : isCents (-x) := by
  obtain ⟨n, rfl⟩ := hx
  exact ⟨-n, by push_cast; ring⟩

theorem isCents_roundHalfUp2 (x : ℚ) : isCents (roundHalfUp2 x) := by
  unfold roundHalfUp2
  split_ifs with h
  · exact ⟨⌊x * 100 + 1/2⌋, rfl⟩
  · exact ⟨-⌊-x * 100 + 1/2⌋, by push_cast; ring⟩

theorem pyRound2_eq_self {x : ℚ} (hx : isCents x) : pyRound2 x = x := by
  obtain ⟨n, rfl⟩ := hx
  have h100 : ((n : ℚ) / 100) * 100 = (n : ℚ) := by
    field_simp
  have hf : roundHalfEven ((n : ℚ)) = n := by
    unfold roundHalfEven
    rw [Int.floor_intCast]
    simp
  rw [pyRound2, h100, hf]

theorem roundHalfUp2_lb (x : ℚ) : x - 1/200 ≤ roundHalfUp2 x := by
  unfold roundHalfUp2
  split_ifs with h
  · have := Int.sub_one_lt_floor (x * 100 + 1/2)
    have hc : (x * 100 + 1/2 - 1 : ℚ) < (⌊x * 100 + 1/2⌋ : ℚ) := by exact_mod_cast this
    linarith
  · have := Int.floor_le (-x * 100 + 1/2)
    have hc : ((⌊-x * 100 + 1/2⌋ : ℤ) : ℚ) ≤ -x * 100 + 1/2 := this
    linarith

theorem roundHalfUp2_nonneg {x : ℚ} (h : 0 ≤ x) : 0 ≤ roundHalfUp2 x := by
  rw [roundHalfUp2, if_pos h]
  have : (0 : ℤ) ≤ ⌊x * 100 + 1/2⌋ := by
    rw [Int.le_floor]
    push_cast
    linarith
  positivity

theorem roundHalfUp2_nonpos {x : ℚ} (h : x ≤ 0) : roundHalfUp2 x ≤ 0 := by
  unfold roundHalfUp2
  split_ifs with h0
  · have hx0 : x = 0 := le_antisymm h h0
    subst hx0
    have : ⌊(0 : ℚ) * 100 + 1/2⌋ = 0 := by
      rw [Int.floor_eq_zero_iff]
      constructor <;> norm_num
    rw [this]
    norm_num
  · have : (0 : ℤ) ≤ ⌊-x * 100 + 1/2⌋ := by
      rw [Int.le_floor]
      push_cast
      nlinarith [not_le.mp h0]
    have hc : (0 : ℚ) ≤ (⌊-x * 100 + 1/2⌋ : ℚ) := by exact_mod_cast this
    have : (0 : ℚ) ≤ (⌊-x * 100 + 1/2⌋ : ℚ) / 100 := by positivity
    linarith

theorem roundHalfUp2_ge_five {x : ℚ} (h : 5 ≤ x) : 5 ≤ roundHalfUp2 x := by
  rw [roundHalfUp2, if_pos (by linarith)]
  have : (500 : ℤ) ≤ ⌊x * 100 + 1/2⌋ := by
    rw [Int.le_floor]
    push_cast
    linarith
  have hc : (500 : ℚ) ≤ (⌊x * 100 + 1/2⌋ : ℚ) := by exact_mod_cast this
  linarith

theorem roundHalfUp2_five : roundHalfUp2 (5 : ℚ) = 5 := by
  with_unfolding_all decide

theorem calculate_buy_fee_eq (cost : ℚ) :
    calculate_buy_fee cost =
      roundHalfUp2
        (if cost * COMMISSION_RATE < MIN_COMMISSION then MIN_COMMISSION
         else cost * COMMISSION_RATE) +
      roundHalfUp2 (cost * TRANSFER_FEE_RATE) := rfl

theorem calculate_sell_fee_eq (revenue : ℚ) :
    calculate_sell_fee revenue =
      roundHalfUp2
        (if revenue * COMMISSION_RATE < MIN_COMMISSION then MIN_COMMISSION
         else revenue * COMMISSION_RATE) +
      roundHalfUp2 (revenue * TRANSFER_FEE_RATE) +
      roundHalfUp2 (revenue * STAMP_DUTY_RATE) := rfl

theorem commission_arg_ge_five (x : ℚ) :
    5 ≤ (if x * COMMISSION_RATE < MIN_COMMISSION then MIN_COMMISSION
         else x * COMMISSION_RATE) := by
  split_ifs with hc
  · norm_num [MIN_COMMISSION]
  · have h5 := not_lt.mp hc
    simp only [MIN_COMMISSION] at h5
    linarith

theorem calculate_buy_fee_ge_five {cost : ℚ} (h : 0 ≤ cost) :
    5 ≤ calculate_buy_fee cost := by
  rw [calculate_buy_fee_eq]
  have hcom := roundHalfUp2_ge_five (commission_arg_ge_five cost)
  have htr : 0 ≤ roundHalfUp2 (cost * TRANSFER_FEE_RATE) :=
    roundHalfUp2_nonneg (by simp only [TRANSFER_FEE_RATE]; positivity)
  linarith

theorem calculate_sell_fee_ge_five {revenue : ℚ} (h : 0 ≤ revenue) :
    5 ≤ calculate_sell_fee revenue := by
  rw [calculate_sell_fee_eq]
  have hcom := roundHalfUp2_ge_five (commission_arg_ge_five revenue)
  have htr : 0 ≤ roundHalfUp2 (revenue * TRANSFER_FEE_RATE) :=
    roundHalfUp2_nonneg (by simp only [TRANSFER_FEE_RATE]; positivity)
  have hst : 0 ≤ roundHalfUp2 (revenue * STAMP_DUTY_RATE) :=
    roundHalfUp2_nonneg (by simp only [STAMP_DUTY_RATE]; positivity)
  linarith

theorem isCents_calculate_buy_fee (cost : ℚ) : isCents (calculate_buy_fee cost) := by
  rw [calculate_buy_fee_eq]
  exact isCents_add (isCents_roundHalfUp2 _) (isCents_roundHalfUp2 _)

theorem isCents_calculate_sell_fee (revenue : ℚ) : isCents (calculate_sell_fee revenue) := by
  rw [calculate_sell_fee_eq]
  exact isCents_add (isCents_add (isCents_roundHalfUp2 _) (isCents_roundHalfUp2 _))
    (isCents_roundHalfUp2 _)

theorem revenue_lt_sell_fee {revenue : ℚ} (h : revenue ≤ 0) :
    revenue < calculate_sell_fee revenue := by
  rw [calculate_sell_fee_eq]
  have hclt : revenue * COMMISSION_RATE < MIN_COMMISSION := by
    simp only [COMMISSION_RATE, MIN_COMMISSION]
    nlinarith
  rw [if_pos hclt]
  simp only [MIN_COMMISSION, roundHalfUp2_five]
  have h1 := roundHalfUp2_lb (revenue * TRANSFER_FEE_RATE)
  have h2 := roundHalfUp2_lb (revenue * STAMP_DUTY_RATE)
  simp only [TRANSFER_FEE_RATE, STAMP_DUTY_RATE] at h1 h2 ⊢
  nlinarith

theorem assocLookup_eq_none_of_not_mem {sym : String} {l : List (String × Position)}
    (h : sym ∉ l.map Prod.fst) : assocLookup sym l = none := by
  induction l with
  | nil => rfl
  | cons kv rest ih =>
    obtain ⟨k, v⟩ := kv
    simp only [List.map_cons, List.mem_cons, not_or] at h
    rw [assocLookup, if_neg (fun hk => h.1 hk.symm)]
    exact ih h.2

theorem assocLookup_append_single {sym : String} {l : List (String × Position)}
    {p : Position} (h : assocLookup sym l = none) :
    assocLookup sym (l ++ [(sym, p)]) = some p := by
  induction l with
  | nil => simp [assocLookup]
  | cons kv rest ih =>
    obtain ⟨k, v⟩ := kv
    rw [assocLookup] at h
    by_cases hk : k = sym
    · rw [if_pos hk] at h
      exact absurd h (by simp)
    · rw [if_neg hk] at h
      rw [List.cons_append, assocLookup, if_neg hk]
      exact ih h

theorem assocLookup_removeAssoc_self {sym : String} {l : List (String × Position)}
    (h : (l.map Prod.fst).Nodup) : assocLookup sym (removeAssoc sym l) = none := by
  induction l with
  | nil => rfl
  | cons kv rest ih =>
    obtain ⟨k, v⟩ := kv
    simp only [List.map_cons, List.nodup_cons] at h
    rw [removeAssoc]
    by_cases hk : k = sym
    · rw [if_pos hk]
      exact assocLookup_eq_none_of_not_mem (hk ▸ h.1)
    · rw [if_neg hk, assocLookup, if_neg hk]
      exact ih h.2

theorem buy_succ_iff (s : PortfolioState) (symbol : String) (price : ℚ)
    (t name : String) (amount : ℚ) :
    (buy s symbol price t name amount).1 = true ↔
      assocLookup symbol s.holdings = none ∧ 0 < price ∧
        100 ≤ buyQuantity amount price ∧
        (buyQuantity amount price : ℚ) * price +
          calculate_buy_fee ((buyQuantity amount price : ℚ) * price) ≤ s.cash := by
  cases hl : assocLookup symbol s.holdings with
  | some p => simp [buy, hl]
  | none =>
    simp only [buy, hl, Option.isSome_none, Bool.false_eq_true, if_false]
    split_ifs with h1 h2 h3
    · exact iff_of_false (by simp)
        (by rintro ⟨-, hp, -⟩; exact absurd hp (not_lt.mpr h1))
    · exact iff_of_false (by simp)
        (by rintro ⟨-, -, hq, -⟩; exact absurd hq (not_le.mpr h2))
    · exact iff_of_false (by simp)
        (by rintro ⟨-, -, -, hc⟩; exact absurd hc (not_le.mpr h3))
    · exact iff_of_true rfl ⟨trivial, not_le.mp h1, not_lt.mp h2, not_lt.mp h3⟩

theorem buy_succ_eq (s : PortfolioState) (symbol : String) (price : ℚ)
    (t name : String) (amount : ℚ)
    (h1 : assocLookup symbol s.holdings = none) (h2 : 0 < price)
    (h3 : 100 ≤ buyQuantity amount price)
    (h4 : (buyQuantity amount price : ℚ) * price +
      calculate_buy_fee ((buyQuantity amount price : ℚ) * price) ≤ s.cash) :
    buy s symbol price t name amount =
      (true,
       { cash := s.cash - ((buyQuantity amount price : ℚ) * price +
           calculate_buy_fee ((buyQuantity amount price : ℚ) * price))
         holdings := s.holdings ++
           [(symbol,
             { name := name, quantity := buyQuantity amount price, buy_price := price,
               buy_time := t, current_price := price, max_price := some price,
               buy_fee := some (calculate_buy_fee ((buyQuantity amount price : ℚ) * price)) })]
         history := s.history ++
           [Transaction.buyTx symbol price (buyQuantity amount price)
             (calculate_buy_fee ((buyQuantity amount price : ℚ) * price)) t]
         daily_stats := s.daily_stats
         total_fees := pyRound2 (s.total_fees +
           calculate_buy_fee ((buyQuantity amount price : ℚ) * price)) }) := by
  simp only [buy, h1, Option.isSome_none, Bool.false_eq_true, if_false]
  rw [if_neg (not_le.mpr h2), if_neg (not_lt.mpr h3), if_neg (not_lt.mpr h4)]

theorem buy_fail_eq (s : PortfolioState) (symbol : String) (price : ℚ)
    (t name : String) (amount : ℚ)
    (h : (buy s symbol price t name amount).1 = false) :
    buy s symbol price t name amount = (false, s) := by
  by_cases hl : (assocLookup symbol s.holdings).isSome = true
  · simp [buy, hl]
  · rw [Bool.not_eq_true] at hl
    simp only [buy, hl, Bool.false_eq_true, if_false] at h ⊢
    split_ifs at h ⊢ with h1 h2 h3 <;> first
      | rfl
      | simp at h

theorem sell_not_held_eq (s : PortfolioState) (symbol : String) (price : ℚ)
    (t reason : String) (h : assocLookup symbol s.holdings = none) :
    sell s symbol price t reason = (false, s) := by
  simp only [sell, h]

theorem sell_same_date_eq (s : PortfolioState) (symbol : String) (price : ℚ)
    (t reason : String) (h : Position)
    (hh : assocLookup symbol s.holdings = some h)
    (hd : dateOf h.buy_time = dateOf t) :
    sell s symbol price t reason = (false, s) := by
  simp only [sell, hh]
  rw [if_pos hd]

theorem sell_succ_eq (s : PortfolioState) (symbol : String) (price : ℚ)
    (t reason : String) (h : Position)
    (hh : assocLookup symbol s.holdings = some h)
    (hd : dateOf h.buy_time ≠ dateOf t) :
    sell s symbol price t reason =
      (true,
       { cash := s.cash + ((h.quantity : ℚ) * price -
           calculate_sell_fee ((h.quantity : ℚ) * price))
         holdings := removeAssoc symbol s.holdings
         history := s.history ++
           [Transaction.sellTx symbol h.name h.buy_price price h.quantity
             (h.buy_fee.getD 0) (calculate_sell_fee ((h.quantity : ℚ) * price)) t
             (pyRound2 ((h.quantity : ℚ) * price - (h.quantity : ℚ) * h.buy_price -
               calculate_sell_fee ((h.quantity : ℚ) * price) - h.buy_fee.getD 0))
             (((h.quantity : ℚ) * price - (h.quantity : ℚ) * h.buy_price -
               calculate_sell_fee ((h.quantity : ℚ) * price) - h.buy_fee.getD 0) /
               ((h.quantity : ℚ) * h.buy_price + h.buy_fee.getD 0)) reason]
         daily_stats := s.daily_stats
         total_fees := pyRound2 (s.total_fees +
           calculate_sell_fee ((h.quantity : ℚ) * price)) }) := by
  simp only [sell, hh]
  rw [if_neg hd]

theorem sell_succ_iff (s : PortfolioState) (symbol : String) (price : ℚ)
    (t reason : String) :
    (sell s symbol price t reason).1 = true ↔
      ∃ h : Position, assocLookup symbol s.holdings = some h ∧
        dateOf h.buy_time ≠ dateOf t := by
  constructor
  · intro hs
    cases hh : assocLookup symbol s.holdings with
    | none => rw [sell_not_held_eq s symbol price t reason hh] at hs; simp at hs
    | some h =>
      refine ⟨h, rfl, fun hd => ?_⟩
      rw [sell_same_date_eq s symbol price t reason h hh hd] at hs
      simp at hs
  · rintro ⟨h, hh, hd⟩
    rw [sell_succ_eq s symbol price t reason h hh hd]

set_option maxRecDepth 2000 in
/-- C2: the fee schedule is a pure function of notional value and side:
`buy_fee(cost)` is `roundHalfUp2(max(5, cost*0.0003)) + roundHalfUp2(cost*0.00001)`
with the two components rounded independently before summing, `sell_fee` adds a
third half-up-rounded component `revenue*0.0005`, and in particular
`buy_fee(10000.00) = 5.10` and `sell_fee(11000.00) = 10.61`. -/
theorem C2_fee_schedule (cost revenue : ℚ) :
    calculate_buy_fee cost =
      roundHalfUp2 (max MIN_COMMISSION (cost * COMMISSION_RATE)) +
        roundHalfUp2 (cost * TRANSFER_FEE_RATE) ∧
    calculate_sell_fee revenue =
      roundHalfUp2 (max MIN_COMMISSION (revenue * COMMISSION_RATE)) +
        roundHalfUp2 (revenue * TRANSFER_FEE_RATE) +
        roundHalfUp2 (revenue * STAMP_DUTY_RATE) ∧
    calculate_buy_fee 10000 = 51/10 ∧
    calculate_sell_fee 11000 = 1061/100 := by
  have hmax : ∀ x : ℚ,
      (if x * COMMISSION_RATE < MIN_COMMISSION then MIN_COMMISSION
       else x * COMMISSION_RATE) = max MIN_COMMISSION (x * COMMISSION_RATE) := by
    intro x
    rcases le_or_lt MIN_COMMISSION (x * COMMISSION_RATE) with h | h
    · rw [if_neg (not_lt.mpr h), max_eq_right h]
    · rw [if_pos h, max_eq_left h.le]
  refine ⟨?_, ?_, by with_unfolding_all decide, by with_unfolding_all decide⟩
  · rw [calculate_buy_fee_eq, hmax]
  · rw [calculate_sell_fee_eq, hmax]

/-- C3: `buy` succeeds iff the symbol has no open position, the price is
positive, `quantity = floor(amount/price/100)*100` is at least 100 and
`cash ≥ cost + fee`; on success the cash is debited by `cost + fee`, the fee
is accumulated (with the source's 2-decimal rounding), a Position is created
with current and high-water price equal to the buy price, and a BUY
transaction is appended; on failure the document is unchanged.  Over the
rational embedding "positive and finite (not NaN)" reduces to positivity. -/
theorem C3_buy_spec (s : PortfolioState) (symbol : String) (price : ℚ)
    (t name : String) (amount : ℚ) :
    ((buy s symbol price t name amount).1 = true ↔
      assocLookup symbol s.holdings = none ∧ 0 < price ∧
        100 ≤ buyQuantity amount price ∧
        (buyQuantity amount price : ℚ) * price +
          calculate_buy_fee ((buyQuantity amount price : ℚ) * price) ≤ s.cash) ∧
    ((buy s symbol price t name amount).1 = true →
      (buy s symbol price t name amount).2.cash =
        s.cash - ((buyQuantity amount price : ℚ) * price +
          calculate_buy_fee ((buyQuantity amount price : ℚ) * price)) ∧
      (buy s symbol price t name amount).2.total_fees =
        pyRound2 (s.total_fees +
          calculate_buy_fee ((buyQuantity amount price : ℚ) * price)) ∧
      assocLookup symbol (buy s symbol price t name amount).2.holdings =
        some { name := name, quantity := buyQuantity amount price, buy_price := price,
               buy_time := t, current_price := price, max_price := some price,
               buy_fee := some (calculate_buy_fee ((buyQuantity amount price : ℚ) * price)) } ∧
      (buy s symbol price t name amount).2.history =
        s.history ++ [Transaction.buyTx symbol price (buyQuantity amount price)
          (calculate_buy_fee ((buyQuantity amount price : ℚ) * price)) t]) ∧
    ((buy s symbol price t name amount).1 = false →
      (buy s symbol price t name amount).2 = s) := by
  refine ⟨buy_succ_iff s symbol price t name amount, ?_, ?_⟩
  · intro hs
    obtain ⟨h1, h2, h3, h4⟩ := (buy_succ_iff s symbol price t name amount).mp hs
    rw [buy_succ_eq s symbol price t name amount h1 h2 h3 h4]
    exact ⟨rfl, rfl, assocLookup_append_single h1, rfl⟩
  · intro hf
    rw [buy_fail_eq s symbol price t name amount hf]

set_option maxRecDepth 2000 in
theorem C3_buy_spec_witness :
    (buy initialState "600519" 10 "2024-01-01 09:31:00" "Moutai" 10000).1 = true ∧
    (buy initialState "600519" 10 "2024-01-01 09:31:00" "Moutai" 10000).2.cash =
      20000 - ((buyQuantity 10000 10 : ℚ) * 10 +
        calculate_buy_fee ((buyQuantity 10000 10 : ℚ) * 10)) := by
  have h := C3_buy_spec initialState "600519" 10 "2024-01-01 09:31:00" "Moutai" 10000
  have hcond : assocLookup "600519" initialState.holdings = none ∧ (0 : ℚ) < 10 ∧
      100 ≤ buyQuantity 10000 10 ∧
      (buyQuantity 10000 10 : ℚ) * 10 +
        calculate_buy_fee ((buyQuantity 10000 10 : ℚ) * 10) ≤ initialState.cash :=
    ⟨rfl, by norm_num, by with_unfolding_all decide, by with_unfolding_all decide⟩
  have hs := h.1.mpr hcond
  exact ⟨hs, (h.2.1 hs).1⟩

/-- C1 counterexample: the administrative mutator `add_holding` accepts a
quantity of 50 shares from the initial state without any prompt (cash is
sufficient), producing an open position whose quantity is not a multiple of
100 — so the claimed invariant does not hold after every administrative
mutation. -/
theorem C1_counterexample :
    ¬ ledgerInvariant
        (add_holding initialState "600519" 10 50 none "2024-01-02 10:00:00" false) := by
  with_unfolding_all decide

/-- C1 (amended): the programmatic `buy` path does preserve the invariants:
from any state whose positions all have positive lot-multiple quantities, a
successful `buy` leaves cash non-negative and every position quantity a
positive multiple of 100. -/
theorem C1_buy_preserves_invariant (s : PortfolioState) (symbol : String) (price : ℚ)
    (t name : String) (amount : ℚ)
    (hinv : ∀ kv ∈ s.holdings, quantityOk kv.2)
    (hs : (buy s symbol price t name amount).1 = true) :
    ledgerInvariant (buy s symbol price t name amount).2 := by
  obtain ⟨h1, h2, h3, h4⟩ := (buy_succ_iff s symbol price t name amount).mp hs
  rw [buy_succ_eq s symbol price t name amount h1 h2 h3 h4]
  constructor
  · show 0 ≤ s.cash - ((buyQuantity amount price : ℚ) * price +
      calculate_buy_fee ((buyQuantity amount price : ℚ) * price))
    linarith
  · intro kv hkv
    rcases List.mem_append.mp hkv with hmem | hmem
    · exact hinv kv hmem
    · rcases List.mem_singleton.mp hmem with rfl
      refine ⟨?_, ?_⟩
      · show (0 : ℤ) < buyQuantity amount price
        omega
      · show buyQuantity amount price % 100 = 0
        unfold buyQuantity
        exact Int.mul_emod_left _ _

theorem C1_witness :
    ledgerInvariant (buy initialState "600519" 10 "2024-01-01 09:31:00" "Moutai" 10000).2 :=
  C1_buy_preserves_invariant initialState "600519" 10 "2024-01-01 09:31:00" "Moutai" 10000
    (by simp [initialState]) (by with_unfolding_all decide)

/-- C5: a sell attempted on the same calendar date as the position's buy
fails (returns the failure signal) for every price, and leaves the whole
document unchanged. -/
theorem C5_same_day_sell_fails (s : PortfolioState) (symbol : String) (price : ℚ)
    (t reason : String) (h : Position)
    (hh : assocLookup symbol s.holdings = some h)
    (hd : dateOf h.buy_time = dateOf t) :
    sell s symbol price t reason = (false, s) :=
  sell_same_date_eq s symbol price t reason h hh hd

theorem C5_same_day_sell_fails_witness :
    sell sampleState "600519" 42 "2024-01-01 15:00:00" "AI Signal" = (false, sampleState) :=
  C5_same_day_sell_fails sampleState "600519" 42 "2024-01-01 15:00:00" "AI Signal"
    samplePosition (by simp [sampleState, assocLookup]) (by with_unfolding_all decide)

/-- C4: every successful `sell` on a held position credits
`cash += revenue - fee` with `revenue = quantity * price` and
`fee = sell_fee(revenue)`, removes the position from the holdings, appends a
SELL transaction carrying buy price, sell price, both fees, the net PnL
`revenue - quantity*buy_price - fee - buy_fee` (recorded with the source's
2-decimal rounding) and the reason, and accumulates the fee. -/
theorem C4_sell_success_spec (s : PortfolioState) (symbol : String) (price : ℚ)
    (t reason : String) (h : Position)
    (hh : assocLookup symbol s.holdings = some h)
    (hnodup : (s.holdings.map Prod.fst).Nodup)
    (hs : (sell s symbol price t reason).1 = true) :
    (sell s symbol price t reason).2.cash =
      s.cash + ((h.quantity : ℚ) * price -
        calculate_sell_fee ((h.quantity : ℚ) * price)) ∧
    assocLookup symbol (sell s symbol price t reason).2.holdings = none ∧
    (sell s symbol price t reason).2.history =
      s.history ++
        [Transaction.sellTx symbol h.name h.buy_price price h.quantity
          (h.buy_fee.getD 0) (calculate_sell_fee ((h.quantity : ℚ) * price)) t
          (pyRound2 ((h.quantity : ℚ) * price - (h.quantity : ℚ) * h.buy_price -
            calculate_sell_fee ((h.quantity : ℚ) * price) - h.buy_fee.getD 0))
          (((h.quantity : ℚ) * price - (h.quantity : ℚ) * h.buy_price -
            calculate_sell_fee ((h.quantity : ℚ) * price) - h.buy_fee.getD 0) /
            ((h.quantity : ℚ) * h.buy_price + h.buy_fee.getD 0)) reason] ∧
    (sell s symbol price t reason).2.total_fees =
      pyRound2 (s.total_fees + calculate_sell_fee ((h.quantity : ℚ) * price)) := by
  have hd : dateOf h.buy_time ≠ dateOf t := by
    intro hd
    rw [sell_same_date_eq s symbol price t reason h hh hd] at hs
    simp at hs
  rw [sell_succ_eq s symbol price t reason h hh hd]
  exact ⟨rfl, assocLookup_removeAssoc_self hnodup, rfl, rfl⟩

theorem C4_sell_success_spec_witness :
    (sell sampleState "600519" 11 "2024-01-02 10:00:00" "AI Signal").2.cash =
      sampleState.cash + ((samplePosition.quantity : ℚ) * 11 -
        calculate_sell_fee ((samplePosition.quantity : ℚ) * 11)) ∧
    assocLookup "600519"
      (sell sampleState "600519" 11 "2024-01-02 10:00:00" "AI Signal").2.holdings = none := by
  have h := C4_sell_success_spec sampleState "600519" 11 "2024-01-02 10:00:00" "AI Signal"
    samplePosition (by simp [sampleState, assocLookup]) (by simp [sampleState])
    (by with_unfolding_all decide)
  exact ⟨h.1, h.2.1⟩

/-- C9: `check_trailing_stop` returns true iff the symbol is held and both
the minimum-gain condition on the buy price and the drawdown condition on the
high-water price hold simultaneously; it is a pure advisory computed from the
document without producing a new one. -/
theorem C9_check_trailing_stop_iff (s : PortfolioState) (symbol : String)
    (current_price threshold min_gain : ℚ) :
    check_trailing_stop s symbol current_price threshold min_gain = true ↔
      ∃ info : Position, assocLookup symbol s.holdings = some info ∧
        min_gain ≤ (current_price - info.buy_price) / info.buy_price ∧
        threshold ≤ (info.max_price.getD info.buy_price - current_price) /
          info.max_price.getD info.buy_price := by
  cases hl : assocLookup symbol s.holdings with
  | none => simp [check_trailing_stop, hl]
  | some info => simp [check_trailing_stop, hl]

theorem sell_py_val (s : PortfolioState) (symbol : String) (p : ℚ)
    (t reason : String) :
    sell_py s symbol (PyFloat.val p) t reason = some (sell s symbol p t reason) := by
  cases hl : assocLookup symbol s.holdings with
  | none => simp [sell_py, sell, hl]
  | some h =>
    by_cases hd : dateOf h.buy_time = dateOf t
    · simp [sell_py, sell, hl, hd]
    · simp only [sell_py, hl]
      rw [if_neg hd]
      rfl

theorem sell_py_nan_raises (s : PortfolioState) (symbol : String)
    (t reason : String) (h : Position)
    (hh : assocLookup symbol s.holdings = some h)
    (hd : dateOf h.buy_time ≠ dateOf t) :
    sell_py s symbol PyFloat.nan t reason = none := by
  simp only [sell_py, hh]
  rw [if_neg hd]
  rfl

/-- C10 counterexample: the original claim says a sell on a held, settled
position succeeds for every float price "including NaN"; on a NaN price the
fee computation multiplies a quiet NaN by the commission rate and the
comparison `commission < self.MIN_COMMISSION` raises
`decimal.InvalidOperation`, so the call raises instead of succeeding. -/
theorem C10_counterexample :
    sell_py sampleState "600519" PyFloat.nan "2024-01-02 10:00:00" "AI Signal" = none := by
  with_unfolding_all decide

/-- C10 (amended): `sell` performs no price validation for non-NaN prices:
on a held position whose buy date differs from the sell date it succeeds for
every rational price (zero and negative included), and a price ≤ 0 strictly
decreases cash, the sell fee being at least the 5-unit minimum commission
while revenue is ≤ 0; a NaN price instead raises
`decimal.InvalidOperation` inside the fee computation, so that call does not
succeed.  The quantity hypothesis reflects the data model (positions hold
non-negative share counts). -/
theorem C10_sell_no_price_validation (s : PortfolioState) (symbol : String)
    (price : ℚ) (t reason : String) (h : Position)
    (hh : assocLookup symbol s.holdings = some h)
    (hd : dateOf h.buy_time ≠ dateOf t) (hq : 0 ≤ h.quantity) :
    sell_py s symbol (PyFloat.val price) t reason =
      some (sell s symbol price t reason) ∧
    (sell s symbol price t reason).1 = true ∧
    (price ≤ 0 → (sell s symbol price t reason).2.cash < s.cash) ∧
    sell_py s symbol PyFloat.nan t reason = none := by
  refine ⟨sell_py_val s symbol price t reason, ?_, ?_,
    sell_py_nan_raises s symbol t reason h hh hd⟩
  · rw [sell_succ_eq s symbol price t reason h hh hd]
  · intro hp
    rw [sell_succ_eq s symbol price t reason h hh hd]
    show s.cash + ((h.quantity : ℚ) * price -
      calculate_sell_fee ((h.quantity : ℚ) * price)) < s.cash
    have hq2 : (0 : ℚ) ≤ (h.quantity : ℚ) := by exact_mod_cast hq
    have hrev : (h.quantity : ℚ) * price ≤ 0 := mul_nonpos_iff.mpr (Or.inl ⟨hq2, hp⟩)
    have := revenue_lt_sell_fee hrev
    linarith

theorem C10_sell_no_price_validation_witness :
    (sell sampleState "600519" 0 "2024-01-02 10:00:00" "AI Signal").1 = true ∧
    (sell sampleState "600519" 0 "2024-01-02 10:00:00" "AI Signal").2.cash <
      sampleState.cash ∧
    sell_py sampleState "600519" (PyFloat.val 0) "2024-01-02 10:00:00" "AI Signal" =
      some (sell sampleState "600519" 0 "2024-01-02 10:00:00" "AI Signal") := by
  have h := C10_sell_no_price_validation sampleState "600519" 0 "2024-01-02 10:00:00"
    "AI Signal" samplePosition (by simp [sampleState, assocLookup])
    (by with_unfolding_all decide) (by with_unfolding_all decide)
  exact ⟨h.2.1, h.2.2.1 le_rfl, h.1⟩

/-- C6 counterexample: `_save` is not the claimed temp-file-and-rename
pattern: its step sequence (truncate in place, then write) has a crash point
(after the truncating `open(path, "w")`) at which the snapshot file is empty
— neither the old nor the new content — so persistence is not all-or-nothing. -/
theorem C6_counterexample :
    ¬ crashSafe (saveSteps "ledger-v2") "ledger-v1" "ledger-v2" := by
  with_unfolding_all decide

/-- C6 (amended): `_save` truncates the snapshot in place and then writes
the new serialized state: completing both steps persists the new content,
but crashing right after the truncating open leaves an empty file; the
temp-file-and-rename pattern the spec describes (modelled as
`atomicSaveSteps`) would be crash safe. -/
theorem C6_save_in_place (old c : String) :
    (runSteps { target := some old, temp := none } (saveSteps c)).target = some c ∧
    (runSteps { target := some old, temp := none } ((saveSteps c).take 1)).target =
      some "" ∧
    crashSafe (atomicSaveSteps c) old c := by
  refine ⟨rfl, rfl, ?_⟩
  intro k hk
  have hk2 : k ≤ 2 := by simpa [atomicSaveSteps] using hk
  interval_cases k
  · exact Or.inl rfl
  · exact Or.inl rfl
  · exact Or.inr rfl

/-- C7: `update_performance` appends exactly one daily snapshot whose total
value is cash plus the sum over open positions of
`quantity * effective_price - sell_fee(quantity * effective_price)` (the
supplied price when present, else the stored current price), whose day
return is zero on the first run and `(total - prev.total_value) /
prev.total_value` when a previous snapshot exists, and it raises each priced
position's high-water price to `max(high_water, current_price)`. -/
theorem C7_update_performance_spec (s : PortfolioState) (prices : List (String × ℚ))
    (date_str : String) :
    ∃ stat : DailySnapshot,
      (update_performance s prices date_str).daily_stats = s.daily_stats ++ [stat] ∧
      stat.total_value = pyRound2 (s.cash + (s.holdings.map (specNetLiq prices)).sum) ∧
      (s.daily_stats = [] → stat.day_return = 0) ∧
      (∀ l prev, s.daily_stats = l ++ [prev] →
        stat.day_return =
          (s.cash + (s.holdings.map (specNetLiq prices)).sum - prev.total_value) /
            prev.total_value) ∧
      (∀ sym p np m, (sym, p) ∈ s.holdings → prices.lookup sym = some np →
        p.max_price = some m →
        (sym, { p with current_price := np, max_price := some (max m np) }) ∈
          (update_performance s prices date_str).holdings) := by
  have hnl : ∀ kv : String × Position,
      netLiquidation (updatePosition prices kv.1 kv.2) = specNetLiq prices kv := by
    intro kv
    cases hl : prices.lookup kv.1 with
    | none => simp [updatePosition, netLiquidation, specNetLiq, hl]
    | some np => simp [updatePosition, netLiquidation, specNetLiq, hl]
  have hsum :
      ((s.holdings.map fun kv => (kv.1, updatePosition prices kv.1 kv.2)).map
        fun kv => netLiquidation kv.2).sum = (s.holdings.map (specNetLiq prices)).sum := by
    rw [List.map_map]
    congr 1
    exact List.map_congr_left fun kv _ => hnl kv
  refine ⟨_, rfl, ?_, ?_, ?_, ?_⟩
  · show pyRound2 (s.cash + _) = _
    rw [hsum]
  · intro h0
    dsimp only
    rw [h0]
    rfl
  · intro l prev hl
    dsimp only
    rw [hl, List.getLast?_concat]
    dsimp only
    rw [hsum]
  · intro sym p np m hmem hlook hmax
    refine List.mem_map.mpr ⟨(sym, p), hmem, ?_⟩
    show (sym, updatePosition prices sym p) = (sym, _)
    rw [updatePosition, hlook]
    simp only [hmax, Option.getD_some]
    rcases lt_or_le m np with hlt | hle
    · rw [if_pos hlt, max_eq_right hlt.le]
    · rw [if_neg (not_lt.mpr hle), max_eq_left hle]

theorem C7_update_performance_spec_witness :
    ((update_performance sampleState [("600519", 12)] "2024-01-02").daily_stats.getLast?).map
        DailySnapshot.day_return = some 0 ∧
    ("600519", { samplePosition with current_price := 12, max_price := some (max 10 12) }) ∈
      (update_performance sampleState [("600519", 12)] "2024-01-02").holdings := by
  obtain ⟨stat, h1, h2, h3, h4, h5⟩ :=
    C7_update_performance_spec sampleState [("600519", 12)] "2024-01-02"
  constructor
  · rw [h1, List.getLast?_concat]
    simp only [Option.map_some']
    rw [h3 rfl]
  · exact h5 "600519" samplePosition 12 10 (by simp [sampleState]) (by simp) rfl

/-- C8: buying and later selling the full position at an identical price
realizes net PnL exactly `-(buy_fee + sell_fee)` on the recorded SELL
transaction, strictly negative and bounded by the two 5-unit fee minimums
(so at most -10). -/
theorem C8_round_trip (s : PortfolioState) (symbol : String) (price : ℚ)
    (t1 name : String) (amount : ℚ) (t2 reason : String) (pos : Position)
    (hs1 : (buy s symbol price t1 name amount).1 = true)
    (hpos : assocLookup symbol (buy s symbol price t1 name amount).2.holdings = some pos)
    (hs2 : (sell (buy s symbol price t1 name amount).2 symbol price t2 reason).1 = true) :
    ((sell (buy s symbol price t1 name amount).2 symbol price t2
        reason).2.history.getLast?).bind Transaction.recordedPnl =
      some (-(calculate_buy_fee ((pos.quantity : ℚ) * price) +
        calculate_sell_fee ((pos.quantity : ℚ) * price))) ∧
    -(calculate_buy_fee ((pos.quantity : ℚ) * price) +
        calculate_sell_fee ((pos.quantity : ℚ) * price)) < 0 ∧
    -(calculate_buy_fee ((pos.quantity : ℚ) * price) +
        calculate_sell_fee ((pos.quantity : ℚ) * price)) ≤ -10 := by
  obtain ⟨h1, h2, h3, h4⟩ := (buy_succ_iff s symbol price t1 name amount).mp hs1
  have hb := buy_succ_eq s symbol price t1 name amount h1 h2 h3 h4
  rw [hb] at hpos hs2 ⊢
  dsimp only at hpos hs2 ⊢
  rw [assocLookup_append_single h1] at hpos
  injection hpos with hpos2
  subst hpos2
  dsimp only at hs2 ⊢
  have hl2 := assocLookup_append_single (l := s.holdings)
    (p := { name := name, quantity := buyQuantity amount price, buy_price := price,
            buy_time := t1, current_price := price, max_price := some price,
            buy_fee := some (calculate_buy_fee ((buyQuantity amount price : ℚ) * price)) }) h1
  have hd : dateOf t1 ≠ dateOf t2 := by
    intro hdd
    rw [sell_same_date_eq _ symbol price t2 reason _ hl2 hdd] at hs2
    simp at hs2
  rw [sell_succ_eq _ symbol price t2 reason _ hl2 hd]
  dsimp only
  rw [List.getLast?_concat]
  have hq100 : (100 : ℚ) ≤ (buyQuantity amount price : ℚ) := by exact_mod_cast h3
  have hcost : 0 ≤ (buyQuantity amount price : ℚ) * price :=
    mul_nonneg (by linarith) h2.le
  have hbf := calculate_buy_fee_ge_five hcost
  have hsf := calculate_sell_fee_ge_five hcost
  have hX : (buyQuantity amount price : ℚ) * price - (buyQuantity amount price : ℚ) * price -
      calculate_sell_fee ((buyQuantity amount price : ℚ) * price) -
      (some (calculate_buy_fee ((buyQuantity amount price : ℚ) * price))).getD 0 =
      -(calculate_buy_fee ((buyQuantity amount price : ℚ) * price) +
        calculate_sell_fee ((buyQuantity amount price : ℚ) * price)) := by
    simp only [Option.getD_some]
    ring
  refine ⟨?_, by linarith, by linarith⟩
  rw [hX]
  simp only [Option.some_bind, Transaction.recordedPnl]
  rw [pyRound2_eq_self (isCents_neg (isCents_add (isCents_calculate_buy_fee _)
    (isCents_calculate_sell_fee _)))]

set_option maxRecDepth 2000 in
theorem C8_round_trip_witness :
    ((sell (buy initialState "600519" 10 "2024-01-01 09:31:00" "Moutai" 10000).2 "600519" 10
        "2024-01-02 10:00:00" "AI Signal").2.history.getLast?).bind Transaction.recordedPnl =
      some (-(calculate_buy_fee ((samplePosition.quantity : ℚ) * 10) +
        calculate_sell_fee ((samplePosition.quantity : ℚ) * 10))) ∧
    -(calculate_buy_fee ((samplePosition.quantity : ℚ) * 10) +
        calculate_sell_fee ((samplePosition.quantity : ℚ) * 10)) < 0 ∧
    -(calculate_buy_fee ((samplePosition.quantity : ℚ) * 10) +
        calculate_sell_fee ((samplePosition.quantity : ℚ) * 10)) ≤ -10 :=
  C8_round_trip initialState "600519" 10 "2024-01-01 09:31:00" "Moutai" 10000
    "2024-01-02 10:00:00" "AI Signal" samplePosition
    (by with_unfolding_all decide)
    (by with_unfolding_all decide)
    (by with_unfolding_all decide)
